import Mathlib

/-!
Verification development for the token-vault repository.

The repository consists of a client (`src/app/src/lib.rs`, `TokenVaultClient`)
that derives program-owned addresses and builds/submits Initialize, Deposit and
Withdraw requests, plus a mock `token_vault` namespace standing in for the
on-chain vault program.  The client-side logic (address derivation, request
construction, local error paths) is embedded here directly from the source.
The on-chain vault state machine (fee computation, timelock, withdrawal limit,
`total_deposited` bookkeeping) is not present under `src/` — only its account
and instruction declarations are — so it is modelled from the specification,
as marked on each definition.
-/

/- ### Address model

A public key is modelled as its byte string.  `Pubkey::find_program_address`
(solana_sdk) is a SHA-256-based derivation that the specification requires to
be pure, deterministic and collision-resistant across seed tuples; it is
modelled here as an ideal injective function of the seed list and program id,
realised by a length-prefixed encoding so that injectivity is provable. -/

/-- A public key, modelled as its byte string. -/
abbrev Pubkey := List Nat

/-- Length-prefixed encoding of a single derivation seed. -/
def encodeSeed (s : List Nat) : List Nat := s.length :: s

/-- Concatenation of length-prefixed seeds. -/
def seedConcat : List (List Nat) → List Nat
  | [] => []
  | s :: rest => encodeSeed s ++ seedConcat rest

/-- Model of `Pubkey::find_program_address(seeds, program_id)`: an idealized
injective hash of the seed list and the program id (the spec requires the real
derivation to be pure and collision-resistant).  Returns the derived address
and a bump byte. -/
def findProgramAddress (seeds : List (List Nat)) (programId : Pubkey) : Pubkey × Nat :=
  (seeds.length :: (seedConcat seeds ++ encodeSeed programId), 255)

/-- Byte string of a Rust `&str` / `String` (`as_bytes`), modelled via the
code points of its characters. -/
def strBytes (s : String) : List Nat := s.data.map Char.toNat

/-- The literal seed `b"vault"` (src/app/src/lib.rs line 62). -/
def vaultSeed : List Nat := strBytes ("vault")

/-- The literal seed `b"vault_token_account"` (src/app/src/lib.rs lines 72, 114, 161). -/
def vaultTokenAccountSeed : List Nat := strBytes ("vault_token_account")

/-- Vault address derivation performed by `initialize_vault`
(src/app/src/lib.rs lines 60-68): seeds are `b"vault"`, the authority's
public key, the token mint, and the vault name's bytes. -/
def derive_vault_address (authority token_mint : Pubkey) (vault_name : String)
    (programId : Pubkey) : Pubkey :=
  (findProgramAddress [vaultSeed, authority, token_mint, strBytes vault_name] programId).1

/-- Custody (vault token account) derivation as written in `initialize_vault`
(src/app/src/lib.rs lines 71-74). -/
def init_vault_token_account (vault_address programId : Pubkey) : Pubkey :=
  (findProgramAddress [vaultTokenAccountSeed, vault_address] programId).1

/-- Custody (vault token account) derivation as written in `deposit`
(src/app/src/lib.rs lines 113-116). -/
def deposit_vault_token_account (vault_address programId : Pubkey) : Pubkey :=
  (findProgramAddress [vaultTokenAccountSeed, vault_address] programId).1

/-- Custody (vault token account) derivation as written in `withdraw`
(src/app/src/lib.rs lines 160-163). -/
def withdraw_vault_token_account (vault_address programId : Pubkey) : Pubkey :=
  (findProgramAddress [vaultTokenAccountSeed, vault_address] programId).1

/-- Model of `get_associated_token_address(wallet, mint)` (solana_sdk):
the associated-token-program derivation from the wallet and the mint. -/
def get_associated_token_address (wallet mint : Pubkey) : Pubkey :=
  (findProgramAddress [wallet, strBytes ("token_program"), mint] (strBytes ("ata_program"))).1

/-- The SPL token program id (`token::ID`), an opaque constant. -/
def tokenProgramID : Pubkey := strBytes ("spl_token")

/-- The system program id (`system_program::ID`), an opaque constant. -/
def systemProgramID : Pubkey := strBytes ("system")

/-- The rent sysvar id, an opaque constant. -/
def rentSysvarID : Pubkey := strBytes ("rent")

/- ### Client-side data model (src/app/src/lib.rs) -/

/-- The `token_vault::state::Vault` account layout
(src/app/src/lib.rs lines 221-232). -/
structure Vault where
  authority : Pubkey
  token_mint : Pubkey
  fee_collector : Pubkey
  fee_percentage : Nat
  withdrawal_timelock : Int
  withdrawal_limit : Nat
  total_deposited : Nat
  name : String
  bump : Nat
  deriving DecidableEq, Repr

/-- The `TokenVaultClient` state: program handle plus the optional stored
vault address (src/app/src/lib.rs lines 17-20).  `new` leaves
`vault_address = None` (line 39). -/
structure TokenVaultClient where
  programId : Pubkey
  vault_address : Option Pubkey
  deriving DecidableEq, Repr

/-- `TokenVaultClient::new` (src/app/src/lib.rs lines 24-41): stores the
program handle with `vault_address: None`. -/
def TokenVaultClient.new (programId : Pubkey) : TokenVaultClient :=
  { programId := programId, vault_address := none }

/-- `TokenVaultClient::with_vault` (src/app/src/lib.rs lines 44-47). -/
def TokenVaultClient.with_vault (c : TokenVaultClient) (vault_address : Pubkey) :
    TokenVaultClient :=
  { c with vault_address := some vault_address }

/-- The account store the client reads from (`self.program.account(vault)`),
modelled as an association list from addresses to vault accounts. -/
abbrev AccountStore := List (Pubkey × Vault)

/-- Address lookup in an account store. -/
def lookupAccount : AccountStore → Pubkey → Option Vault
  | [], _ => none
  | (k, v) :: rest, a => if k = a then some v else lookupAccount rest a

/-- Local client errors: the `anyhow!("Vault address not set")` failure and the
propagated failure of `self.program.account(vault)` when the vault account does
not exist. -/
inductive ClientError where
  | vaultAddressNotSet
  | vaultNotFound
  deriving DecidableEq, Repr

/-- The request built and submitted by `initialize_vault`
(src/app/src/lib.rs lines 79-98): the `InitializeVault` accounts
(lines 82-90) and instruction arguments (lines 91-96). -/
structure InitializeVaultRequest where
  authority : Pubkey
  vault : Pubkey
  vault_token_account : Pubkey
  token_mint : Pubkey
  token_program : Pubkey
  system_program : Pubkey
  rent : Pubkey
  name : String
  fee_percentage : Nat
  withdrawal_timelock : Int
  withdrawal_limit : Nat
  deriving DecidableEq, Repr

/-- The request built and submitted by `deposit`
(src/app/src/lib.rs lines 131-145): the `Deposit` accounts (lines 134-140)
and instruction arguments (lines 141-143). -/
structure DepositRequest where
  depositor : Pubkey
  vault : Pubkey
  vault_token_account : Pubkey
  depositor_token_account : Pubkey
  token_program : Pubkey
  amount : Nat
  deriving DecidableEq, Repr

/-- The request built and submitted by `withdraw`
(src/app/src/lib.rs lines 185-200): the `Withdraw` accounts (lines 188-195)
and instruction arguments (lines 196-198). -/
structure WithdrawRequest where
  withdrawer : Pubkey
  vault : Pubkey
  vault_token_account : Pubkey
  withdrawer_token_account : Pubkey
  fee_collector_token_account : Pubkey
  token_program : Pubkey
  amount : Nat
  deriving DecidableEq, Repr

/-- `TokenVaultClient::initialize_vault` (src/app/src/lib.rs lines 50-102):
derives the vault address and the custody address, builds the request, and
returns the derived vault address.  It takes `&self` — the client state is
returned unchanged and `vault_address` is never set here. -/
def TokenVaultClient.initialize_vault (c : TokenVaultClient) (authority : Pubkey)
    (token_mint : Pubkey) (vault_name : String) (fee_percentage : Nat)
    (withdrawal_timelock : Int) (withdrawal_limit : Nat) :
    Except ClientError (TokenVaultClient × InitializeVaultRequest × Pubkey) :=
  let vault_address := derive_vault_address authority token_mint vault_name c.programId
  let vault_token_account := init_vault_token_account vault_address c.programId
  .ok (c,
    { authority := authority
      vault := vault_address
      vault_token_account := vault_token_account
      token_mint := token_mint
      token_program := tokenProgramID
      system_program := systemProgramID
      rent := rentSysvarID
      name := vault_name
      fee_percentage := fee_percentage
      withdrawal_timelock := withdrawal_timelock
      withdrawal_limit := withdrawal_limit },
    vault_address)

/-- `TokenVaultClient::deposit` (src/app/src/lib.rs lines 105-149): fails with
`Vault address not set` when `with_vault` has not been called; otherwise
derives the custody address, fetches the vault account to learn the token
mint, derives the depositor's associated token account, and builds the
deposit request.  Takes `&self`; the client state is returned unchanged. -/
def TokenVaultClient.deposit (c : TokenVaultClient) (store : AccountStore)
    (depositor : Pubkey) (amount : Nat) :
    Except ClientError (TokenVaultClient × DepositRequest) :=
  match c.vault_address with
  | none => .error .vaultAddressNotSet
  | some vault =>
    let vault_token_account := deposit_vault_token_account vault c.programId
    match lookupAccount store vault with
    | none => .error .vaultNotFound
    | some vault_data =>
      let token_mint := vault_data.token_mint
      let depositor_token_account := get_associated_token_address depositor token_mint
      .ok (c,
        { depositor := depositor
          vault := vault
          vault_token_account := vault_token_account
          depositor_token_account := depositor_token_account
          token_program := tokenProgramID
          amount := amount })

/-- `TokenVaultClient::withdraw` (src/app/src/lib.rs lines 152-204): fails with
`Vault address not set` when `with_vault` has not been called; otherwise
derives the custody address, fetches the vault account (reading its token mint
and — without ever using it — its authority, line 168), derives the
withdrawer's and the fee collector's associated token accounts, and builds the
withdraw request.  No comparison of the withdrawer against the vault authority
is performed.  Takes `&self`; the client state is returned unchanged. -/
def TokenVaultClient.withdraw (c : TokenVaultClient) (store : AccountStore)
    (withdrawer : Pubkey) (amount : Nat) :
    Except ClientError (TokenVaultClient × WithdrawRequest) :=
  match c.vault_address with
  | none => .error .vaultAddressNotSet
  | some vault =>
    let vault_token_account := withdraw_vault_token_account vault c.programId
    match lookupAccount store vault with
    | none => .error .vaultNotFound
    | some vault_data =>
      let token_mint := vault_data.token_mint
      let _vault_authority := vault_data.authority
      let withdrawer_token_account := get_associated_token_address withdrawer token_mint
      let fee_collector_token_account :=
        get_associated_token_address vault_data.fee_collector token_mint
      .ok (c,
        { withdrawer := withdrawer
          vault := vault
          vault_token_account := vault_token_account
          withdrawer_token_account := withdrawer_token_account
          fee_collector_token_account := fee_collector_token_account
          token_program := tokenProgramID
          amount := amount })

/-- `TokenVaultClient::get_vault_info` (src/app/src/lib.rs lines 207-211):
fails with `Vault address not set` when `with_vault` has not been called,
propagates the account-fetch failure when the vault does not exist, and
otherwise returns the fetched vault account as-is.  Takes `&self`; the client
state is returned unchanged. -/
def TokenVaultClient.get_vault_info (c : TokenVaultClient) (store : AccountStore) :
    Except ClientError (TokenVaultClient × Vault) :=
  match c.vault_address with
  | none => .error .vaultAddressNotSet
  | some vault =>
    match lookupAccount store vault with
    | none => .error .vaultNotFound
    | some vault_data => .ok (c, vault_data)

/- ### Vault state machine, modelled from the spec

The on-chain vault program is not part of `src/` (the repository ships only a
mock `token_vault` namespace of account and instruction declarations), so the
state machine and policy engine below are modelled from the specification
(sections 3, 4.2 and 4.3). -/

/-- Modelled from the spec: the VaultRecord data model (spec section 3) of the
on-chain vault program, which is missing from `src/`.  It matches
`token_vault::state::Vault` and adds `creation_time`, the timestamp captured
at Initialize and used as the timelock reference point. -/
structure VaultRecord where
  authority : Pubkey
  token_type : Pubkey
  fee_collector : Pubkey
  fee_percentage : Nat
  withdrawal_timelock : Int
  withdrawal_limit : Nat
  total_deposited : Nat
  name : String
  creation_time : Int
  deriving DecidableEq, Repr

/-- Modelled from the spec: the error taxonomy of the vault state machine
(spec section 7), which is missing from `src/`. -/
inductive VaultError where
  | AlreadyInitialized
  | VaultNotFound
  | InvalidFeeConfig
  | ZeroAmount
  | InsufficientFunds
  | InsufficientVaultBalance
  | ExceedsWithdrawalLimit
  | TimelockNotElapsed
  deriving DecidableEq, Repr

/-- Modelled from the spec: the PolicyEngine fee computation
`compute_fee(amount, fee_percentage) -> (fee, net)` (spec sections 4.2, 4.3),
which is missing from `src/`: `fee = floor(amount * fee_percentage / 10_000)`,
`net = amount - fee`. -/
def compute_fee (amount : Nat) (fee_percentage : Nat) : Nat × Nat :=
  let fee := amount * fee_percentage / 10000
  (fee, amount - fee)

/-- Modelled from the spec: the PolicyEngine timelock check
`check_timelock(creation_time, now, timelock) -> bool` (spec sections 4.2,
4.3), which is missing from `src/`: the withdrawal is permitted when
`now - creation_time >= timelock`. -/
def check_timelock (creation_time now timelock : Int) : Bool :=
  timelock ≤ now - creation_time

/-- Modelled from the spec: the PolicyEngine per-operation limit check
`check_limit(amount, withdrawal_limit) -> bool` (spec sections 4.2, 4.3),
which is missing from `src/`. -/
def check_limit (amount withdrawal_limit : Nat) : Bool :=
  amount ≤ withdrawal_limit

/-- Modelled from the spec: the Deposit transition of the vault state machine
(spec section 4.2), which is missing from `src/`.  Preconditions:
`amount > 0` and the depositor holds at least `amount`; effect: increments
`total_deposited` by `amount`. -/
def depositStep (v : VaultRecord) (depositorBalance : Nat) (amount : Nat) :
    Except VaultError VaultRecord :=
  if amount = 0 then .error .ZeroAmount
  else if depositorBalance < amount then .error .InsufficientFunds
  else .ok { v with total_deposited := v.total_deposited + amount }

/-- Modelled from the spec: the Withdraw transition of the vault state machine
(spec section 4.2), which is missing from `src/`.  Preconditions:
`amount > 0`, `amount ≤ withdrawal_limit`, the timelock has elapsed, and the
custody balance (equal to `total_deposited` by the spec's invariant) covers
`amount`; effect: computes `(fee, net)`, transfers them, and decrements
`total_deposited` by the gross `amount`.  Returns the post-state together
with the fee paid to the fee collector and the net paid to the withdrawer. -/
def withdrawStep (v : VaultRecord) (now : Int) (amount : Nat) :
    Except VaultError (VaultRecord × Nat × Nat) :=
  if amount = 0 then .error .ZeroAmount
  else if ¬ check_limit amount v.withdrawal_limit then .error .ExceedsWithdrawalLimit
  else if ¬ check_timelock v.creation_time now v.withdrawal_timelock then
    .error .TimelockNotElapsed
  else if v.total_deposited < amount then .error .InsufficientVaultBalance
  else
    let r := compute_fee amount v.fee_percentage
    .ok ({ v with total_deposited := v.total_deposited - amount }, r.1, r.2)

/-- The on-chain store of vault records, addressed by derived vault address. -/
abbrev RecordStore := List (Pubkey × VaultRecord)

/-- Address lookup in the record store. -/
def lookupRecord : RecordStore → Pubkey → Option VaultRecord
  | [], _ => none
  | (k, v) :: rest, a => if k = a then some v else lookupRecord rest a

/-- Modelled from the spec: the Initialize transition of the vault state
machine (spec section 4.2), which is missing from `src/`.  Fails with
`AlreadyInitialized` when the derived address already holds a record and with
`InvalidFeeConfig` when `fee_percentage > 10_000`; otherwise creates the
record with `total_deposited = 0` and `creation_time = now` and returns the
new store and the derived vault address. -/
def initializeStep (store : RecordStore) (programId authority token_type : Pubkey)
    (name : String) (fee_percentage : Nat) (withdrawal_timelock : Int)
    (withdrawal_limit : Nat) (now : Int) :
    Except VaultError (RecordStore × Pubkey) :=
  let addr := derive_vault_address authority token_type name programId
  match lookupRecord store addr with
  | some _ => .error .AlreadyInitialized
  | none =>
    if 10000 < fee_percentage then .error .InvalidFeeConfig
    else
      .ok ((addr,
        { authority := authority
          token_type := token_type
          fee_collector := authority
          fee_percentage := fee_percentage
          withdrawal_timelock := withdrawal_timelock
          withdrawal_limit := withdrawal_limit
          total_deposited := 0
          name := name
          creation_time := now }) :: store, addr)

/-- The record store after an Initialize attempt: the new store on success,
the unchanged store on a rejected attempt (no mutation is ever produced by a
failed transition). -/
def initResultStore (store : RecordStore) (programId authority token_type : Pubkey)
    (name : String) (fee_percentage : Nat) (withdrawal_timelock : Int)
    (withdrawal_limit : Nat) (now : Int) : RecordStore :=
  match initializeStep store programId authority token_type name fee_percentage
      withdrawal_timelock withdrawal_limit now with
  | .ok (store2, _) => store2
  | .error _ => store

/-- One operation of a Deposit/Withdraw sequence against a single vault
record.  A deposit carries the depositor's balance and the amount; a
withdrawal carries the submission time and the amount. -/
inductive VaultOp where
  | deposit (depositorBalance amount : Nat)
  | withdraw (now : Int) (amount : Nat)
  deriving DecidableEq, Repr

/-- Apply one operation to a vault record (discarding the fee/net outputs of a
withdrawal). -/
def runOp (v : VaultRecord) : VaultOp → Except VaultError VaultRecord
  | .deposit b a => depositStep v b a
  | .withdraw t a => (withdrawStep v t a).map (·.1)

/-- Run a sequence of operations; the run succeeds only when every operation
succeeds. -/
def runOps (v : VaultRecord) : List VaultOp → Except VaultError VaultRecord
  | [] => .ok v
  | op :: ops =>
    match runOp v op with
    | .error e => .error e
    | .ok v2 => runOps v2 ops

/-- Sum of the deposit amounts of a sequence. -/
def depositSum : List VaultOp → Nat
  | [] => 0
  | .deposit _ a :: ops => a + depositSum ops
  | .withdraw _ _ :: ops => depositSum ops

/-- Sum of the withdrawal principal (gross) amounts of a sequence. -/
def withdrawSum : List VaultOp → Nat
  | [] => 0
  | .deposit _ _ :: ops => withdrawSum ops
  | .withdraw _ a :: ops => a + withdrawSum ops

/-- Decidable equality for `Except` results, used to evaluate the model on
concrete inputs. -/
instance {ε α : Type} [DecidableEq ε] [DecidableEq α] : DecidableEq (Except ε α) :=
  fun a b =>
  match a, b with
  | .error e1, .error e2 =>
    if h : e1 = e2 then isTrue (by rw [h]) else isFalse (by intro hc; cases hc; exact h rfl)
  | .ok x, .ok y =>
    if h : x = y then isTrue (by rw [h]) else isFalse (by intro hc; cases hc; exact h rfl)
  | .error _, .ok _ => isFalse (by intro hc; cases hc)
  | .ok _, .error _ => isFalse (by intro hc; cases hc)

/- ### Sample values used by the concrete witnesses -/

/-- Sample vault account for client-side witnesses. -/
def sampleVault : Vault :=
  { authority := [1], token_mint := [2], fee_collector := [3], fee_percentage := 100
    withdrawal_timelock := 86400, withdrawal_limit := 1000, total_deposited := 50
    name := "v", bump := 254 }

/-- Sample client whose vault address has been set with `with_vault`. -/
def sampleClient : TokenVaultClient := { programId := [0], vault_address := some [5] }

/-- Sample client on which `with_vault` has never been called. -/
def sampleClientNoVault : TokenVaultClient := { programId := [0], vault_address := none }

/-- Sample vault record with a zero timelock, used for withdrawal witnesses. -/
def sampleRecord2 : VaultRecord :=
  { authority := [1], token_type := [2], fee_collector := [3], fee_percentage := 5500
    withdrawal_timelock := 0, withdrawal_limit := 100, total_deposited := 10
    name := "v", creation_time := 0 }

/-- Sample freshly initialized vault record. -/
def sampleRecord : VaultRecord :=
  { authority := [1], token_type := [2], fee_collector := [3], fee_percentage := 100
    withdrawal_timelock := 86400, withdrawal_limit := 1000000000, total_deposited := 0
    name := "v", creation_time := 0 }

/-- Sample derived vault address. -/
def sampleAddr : Pubkey := derive_vault_address [1] [2] "n" [0]

/-- The record `initializeStep` creates at `sampleAddr` for authority `[1]`,
token type `[2]`, name `"n"`, fee 100 bp, timelock 86400, limit 1000, at
time 5. -/
def sampleInitRecord : VaultRecord :=
  { authority := [1], token_type := [2], fee_collector := [1], fee_percentage := 100
    withdrawal_timelock := 86400, withdrawal_limit := 1000, total_deposited := 0
    name := "n", creation_time := 5 }

/- ### Helper lemmas -/

/-- Appending after a length-prefixed seed is unambiguous. -/
theorem encodeSeed_append_inj {s1 s2 r1 r2 : List Nat}
    (h : encodeSeed s1 ++ r1 = encodeSeed s2 ++ r2) : s1 = s2 ∧ r1 = r2 := by
  simp only [encodeSeed, List.cons_append, List.cons.injEq] at h
  exact List.append_inj h.2 h.1

/-- Concatenations of equally many length-prefixed seeds are unambiguous. -/
theorem seedConcat_append_inj : ∀ (l1 l2 : List (List Nat)) (r1 r2 : List Nat),
    l1.length = l2.length → seedConcat l1 ++ r1 = seedConcat l2 ++ r2 →
    l1 = l2 ∧ r1 = r2 := by
  intro l1
  induction l1 with
  | nil =>
    intro l2 r1 r2 hlen h
    cases l2 with
    | nil => simpa [seedConcat] using h
    | cons s2 t2 => simp at hlen
  | cons s t ih =>
    intro l2 r1 r2 hlen h
    cases l2 with
    | nil => simp at hlen
    | cons s2 t2 =>
      simp only [seedConcat, List.append_assoc] at h
      obtain ⟨hs, hrest⟩ := encodeSeed_append_inj h
      simp only [List.length_cons, Nat.add_right_cancel_iff] at hlen
      obtain ⟨ht, hr⟩ := ih t2 _ _ hlen hrest
      exact ⟨by rw [hs, ht], hr⟩

/-- The modelled program-address derivation is injective in the seed list and
the program id. -/
theorem findProgramAddress_inj {seeds1 seeds2 : List (List Nat)} {pid1 pid2 : Pubkey}
    (h : (findProgramAddress seeds1 pid1).1 = (findProgramAddress seeds2 pid2).1) :
    seeds1 = seeds2 ∧ pid1 = pid2 := by
  simp only [findProgramAddress, List.cons.injEq] at h
  obtain ⟨hs, hp⟩ := seedConcat_append_inj _ _ _ _ h.1 h.2
  refine ⟨hs, ?_⟩
  simp only [encodeSeed, List.cons.injEq] at hp
  exact hp.2

/-- Character code points determine the character. -/
theorem char_toNat_inj : Function.Injective Char.toNat := by
  intro a b h
  apply Char.eq_of_val_eq
  apply UInt32.eq_of_toBitVec_eq
  apply BitVec.eq_of_toNat_eq
  exact h

/-- String byte encodings determine the string. -/
theorem strBytes_inj : Function.Injective strBytes := by
  intro s t h
  exact String.ext ((List.map_injective_iff.mpr char_toNat_inj) h)

/-- The vault address determines the authority, the token mint and the name. -/
theorem derive_vault_address_inj {a1 m1 a2 m2 pid : Pubkey} {n1 n2 : String}
    (h : derive_vault_address a1 m1 n1 pid = derive_vault_address a2 m2 n2 pid) :
    a1 = a2 ∧ m1 = m2 ∧ n1 = n2 := by
  unfold derive_vault_address at h
  obtain ⟨hs, -⟩ := findProgramAddress_inj h
  simp only [List.cons.injEq, and_true] at hs
  exact ⟨hs.2.1, hs.2.2.1, strBytes_inj hs.2.2.2⟩

/-- Inversion of a successful withdrawal: every precondition held and the
post-state and fee/net outputs are fully determined. -/
theorem withdrawStep_ok_spec {v : VaultRecord} {now : Int} {a : Nat}
    {v2 : VaultRecord} {fee net : Nat}
    (h : withdrawStep v now a = .ok (v2, fee, net)) :
    a ≠ 0 ∧ a ≤ v.withdrawal_limit ∧
    v.withdrawal_timelock ≤ now - v.creation_time ∧
    a ≤ v.total_deposited ∧
    v2 = { v with total_deposited := v.total_deposited - a } ∧
    fee = a * v.fee_percentage / 10000 ∧ net = a - fee := by
  unfold withdrawStep at h
  split at h
  · cases h
  rename_i h0
  split at h
  · cases h
  rename_i hlim
  split at h
  · cases h
  rename_i htl
  split at h
  · cases h
  rename_i hbal
  simp only [Except.ok.injEq, Prod.mk.injEq] at h
  obtain ⟨hv2, hfee, hnet⟩ := h
  simp only [check_limit, not_not, decide_eq_true_eq] at hlim
  simp only [check_timelock, not_not, decide_eq_true_eq] at htl
  refine ⟨h0, hlim, htl, Nat.le_of_not_lt hbal, hv2.symm, ?_, ?_⟩
  · rw [← hfee]
    simp [compute_fee]
  · rw [← hnet, ← hfee]
    simp [compute_fee]

/-- Inversion of a successful deposit: `total_deposited` grows by the
deposited amount. -/
theorem depositStep_ok_total {v : VaultRecord} {b a : Nat} {v2 : VaultRecord}
    (h : depositStep v b a = .ok v2) :
    v2.total_deposited = v.total_deposited + a := by
  unfold depositStep at h
  split at h
  · cases h
  split at h
  · cases h
  simp only [Except.ok.injEq] at h
  rw [← h]

/-- Running a successful operation sequence changes `total_deposited` by the
deposits minus the withdrawal principals. -/
theorem runOps_total : ∀ (ops : List VaultOp) (v0 v : VaultRecord),
    runOps v0 ops = .ok v →
    (v.total_deposited : Int) =
      (v0.total_deposited : Int) + (depositSum ops : Int) - (withdrawSum ops : Int) := by
  intro ops
  induction ops with
  | nil =>
    intro v0 v h
    simp only [runOps, Except.ok.injEq] at h
    subst h
    simp [depositSum, withdrawSum]
  | cons op ops ih =>
    intro v0 v h
    simp only [runOps] at h
    cases hop : runOp v0 op with
    | error e =>
      rw [hop] at h
      cases h
    | ok v1 =>
      rw [hop] at h
      have hrec := ih v1 v h
      cases op with
      | deposit b a =>
        have hd : v1.total_deposited = v0.total_deposited + a :=
          depositStep_ok_total hop
        simp only [depositSum, withdrawSum]
        rw [hrec, hd]
        push_cast
        ring
      | withdraw t a =>
        simp only [runOp] at hop
        cases hws : withdrawStep v0 t a with
        | error e =>
          rw [hws] at hop
          simp only [Except.map] at hop
          cases hop
        | ok res =>
          obtain ⟨vres, fee, net⟩ := res
          rw [hws] at hop
          simp only [Except.map] at hop
          obtain ⟨-, -, -, hle, hv2, -, -⟩ := withdrawStep_ok_spec hws
          have hcast : (v1.total_deposited : Int) =
              (v0.total_deposited : Int) - (a : Int) := by
            injection hop with hv1
            rw [← hv1, hv2]
            exact Nat.cast_sub hle
          simp only [depositSum, withdrawSum]
          rw [hrec, hcast]
          push_cast
          ring

/- ### Claims -/

/-- C1: for every sequence of successful Deposit and Withdraw operations on an
initialized vault (which starts with `total_deposited = 0`), the final
`total_deposited` equals the sum of all deposit amounts minus the sum of all
withdrawal principal (gross, not net-of-fee) amounts, and this value is never
negative. -/
theorem c1_total_deposited_accounting (v0 : VaultRecord) (ops : List VaultOp)
    (v : VaultRecord) (hinit : v0.total_deposited = 0)
    (hrun : runOps v0 ops = .ok v) :
    (v.total_deposited : Int) = (depositSum ops : Int) - (withdrawSum ops : Int) ∧
    0 ≤ (v.total_deposited : Int) := by
  have h := runOps_total ops v0 v hrun
  rw [hinit] at h
  exact ⟨by simpa using h, Int.natCast_nonneg _⟩

/-- Witness for C1: two deposits and a withdrawal on a fresh vault leave
`total_deposited = 4 = 7 - 3`. -/
theorem c1_witness :
    ((({ sampleRecord with total_deposited := 4 } : VaultRecord).total_deposited : Int) =
      (depositSum [VaultOp.deposit 10 7, VaultOp.withdraw 90000 3] : Int) -
      (withdrawSum [VaultOp.deposit 10 7, VaultOp.withdraw 90000 3] : Int)) ∧
    0 ≤ (({ sampleRecord with total_deposited := 4 } : VaultRecord).total_deposited : Int) :=
  c1_total_deposited_accounting sampleRecord [VaultOp.deposit 10 7, VaultOp.withdraw 90000 3]
    { sampleRecord with total_deposited := 4 } (by decide) (by decide)

/-- C2: every successful withdrawal of amount `a` at fee rate `f` basis points
charges exactly `floor(a * f / 10_000)` and pays `a` minus that fee; in
particular `compute_fee 10000 550 = (550, 9450)` and
`compute_fee 1 1 = (0, 1)` — truncation favors the withdrawer. -/
theorem c2_withdraw_fee_exact_floor (v : VaultRecord) (now : Int) (a : Nat)
    (v2 : VaultRecord) (fee net : Nat)
    (h : withdrawStep v now a = .ok (v2, fee, net)) :
    fee = a * v.fee_percentage / 10000 ∧ net = a - fee ∧
    compute_fee 10000 550 = (550, 9450) ∧ compute_fee 1 1 = (0, 1) := by
  obtain ⟨-, -, -, -, -, hfee, hnet⟩ := withdrawStep_ok_spec h
  exact ⟨hfee, hnet, by decide, by decide⟩

/-- Witness for C2: withdrawing 10 units at 5500 basis points charges fee 5
and pays net 5. -/
theorem c2_witness :
    (5 : Nat) = 10 * sampleRecord2.fee_percentage / 10000 ∧ (5 : Nat) = 10 - 5 ∧
    compute_fee 10000 550 = (550, 9450) ∧ compute_fee 1 1 = (0, 1) :=
  c2_withdraw_fee_exact_floor sampleRecord2 0 10
    { sampleRecord2 with total_deposited := 0 } 5 5 (by decide)

/-- C4: the derived vault address is a pure deterministic function of
`(authority, token_type, name)` — identical inputs give identical addresses —
and distinct triples give distinct addresses. -/
theorem c4_vault_address_deterministic_injective (a1 m1 : Pubkey) (n1 : String)
    (a2 m2 : Pubkey) (n2 : String) (pid : Pubkey)
    (hne : (a1, m1, n1) ≠ (a2, m2, n2)) :
    derive_vault_address a1 m1 n1 pid = derive_vault_address a1 m1 n1 pid ∧
    derive_vault_address a1 m1 n1 pid ≠ derive_vault_address a2 m2 n2 pid := by
  refine ⟨rfl, fun heq => hne ?_⟩
  obtain ⟨ha, hm, hn⟩ := derive_vault_address_inj heq
  rw [ha, hm, hn]

/-- Witness for C4: triples differing only in the vault name derive distinct
addresses. -/
theorem c4_witness :
    derive_vault_address [1] [2] "a" [0] = derive_vault_address [1] [2] "a" [0] ∧
    derive_vault_address [1] [2] "a" [0] ≠ derive_vault_address [1] [2] "b" [0] :=
  c4_vault_address_deterministic_injective [1] [2] "a" [1] [2] "b" [0] (by decide)

/-- C5: the custody (vault token account) address recomputed by `deposit` and
by `withdraw` for a vault address equals the one `initialize_vault` derived
for it, and all three are the same pure function of the vault address and the
fixed `b"vault_token_account"` namespace tag — no directory lookup. -/
theorem c5_custody_derivation_agreement (v pid : Pubkey) :
    deposit_vault_token_account v pid = init_vault_token_account v pid ∧
    withdraw_vault_token_account v pid = init_vault_token_account v pid ∧
    init_vault_token_account v pid =
      (findProgramAddress [vaultTokenAccountSeed, v] pid).1 :=
  ⟨rfl, rfl, rfl⟩

/-- C3: with the other withdrawal preconditions holding, a withdrawal strictly
before `creation_time + withdrawal_timelock` fails with `TimelockNotElapsed`
and a withdrawal exactly at or after that instant succeeds (the boundary is
inclusive); `creation_time` is the timestamp recorded by Initialize. -/
theorem c3_timelock_boundary_inclusive (v : VaultRecord) (amount : Nat)
    (tEarly tLate : Int) (store : RecordStore) (pid auth tt : Pubkey) (nm : String)
    (fee : Nat) (tl : Int) (lim : Nat) (t0 : Int) (store2 : RecordStore) (addr : Pubkey)
    (h0 : amount ≠ 0) (hlim : amount ≤ v.withdrawal_limit)
    (hbal : amount ≤ v.total_deposited)
    (hEarly : tEarly < v.creation_time + v.withdrawal_timelock)
    (hLate : v.creation_time + v.withdrawal_timelock ≤ tLate)
    (hinit : initializeStep store pid auth tt nm fee tl lim t0 = .ok (store2, addr)) :
    withdrawStep v tEarly amount = .error .TimelockNotElapsed ∧
    (∃ f n, withdrawStep v tLate amount =
      .ok ({ v with total_deposited := v.total_deposited - amount }, f, n)) ∧
    ∃ r, lookupRecord store2 addr = some r ∧ r.creation_time = t0 := by
  have hl : check_limit amount v.withdrawal_limit = true := by
    simp [check_limit, hlim]
  refine ⟨?_, ?_, ?_⟩
  · have hc : check_timelock v.creation_time tEarly v.withdrawal_timelock = false := by
      simp only [check_timelock, decide_eq_false_iff_not, not_le]
      omega
    simp [withdrawStep, h0, hl, hc]
  · have hc : check_timelock v.creation_time tLate v.withdrawal_timelock = true := by
      simp only [check_timelock, decide_eq_true_eq]
      omega
    refine ⟨(compute_fee amount v.fee_percentage).1,
      (compute_fee amount v.fee_percentage).2, ?_⟩
    simp [withdrawStep, h0, hl, hc, Nat.not_lt.mpr hbal]
  · simp only [initializeStep] at hinit
    split at hinit
    · cases hinit
    split at hinit
    · cases hinit
    simp only [Except.ok.injEq, Prod.mk.injEq] at hinit
    obtain ⟨hstore, haddr⟩ := hinit
    refine ⟨{ authority := auth
              token_type := tt
              fee_collector := auth
              fee_percentage := fee
              withdrawal_timelock := tl
              withdrawal_limit := lim
              total_deposited := 0
              name := nm
              creation_time := t0 }, ?_, rfl⟩
    rw [← hstore, ← haddr]
    simp [lookupRecord]

/-- Witness for C3: on a vault with zero timelock created at time 0, a
withdrawal at time -1 hits the timelock and one at time 0 succeeds; the
record created by Initialize at time 5 carries `creation_time = 5`. -/
theorem c3_witness :
    withdrawStep sampleRecord2 (-1) 10 = .error .TimelockNotElapsed ∧
    (∃ f n, withdrawStep sampleRecord2 0 10 =
      .ok ({ sampleRecord2 with total_deposited := sampleRecord2.total_deposited - 10 },
        f, n)) ∧
    ∃ r, lookupRecord [(sampleAddr, sampleInitRecord)] sampleAddr = some r ∧
      r.creation_time = 5 :=
  c3_timelock_boundary_inclusive sampleRecord2 10 (-1) 0 [] [0] [1] [2] "n" 100 86400 1000
    5 [(sampleAddr, sampleInitRecord)] sampleAddr (by decide) (by decide) (by decide)
    (by decide) (by decide) (by decide)

/-- C6: Initialize is not idempotent — after a successful Initialize, a second
Initialize with the same `(authority, token_type, name)` triple fails with
`AlreadyInitialized`, the store is unchanged by the rejected attempt, and in
particular the existing vault's `total_deposited` is unchanged. -/
theorem c6_reinitialization_rejected (store : RecordStore) (pid auth tt : Pubkey)
    (nm : String) (fee : Nat) (tl : Int) (lim : Nat) (t0 : Int)
    (store2 : RecordStore) (addr : Pubkey)
    (fee2 : Nat) (tl2 : Int) (lim2 : Nat) (t1 : Int)
    (hinit : initializeStep store pid auth tt nm fee tl lim t0 = .ok (store2, addr)) :
    initializeStep store2 pid auth tt nm fee2 tl2 lim2 t1 = .error .AlreadyInitialized ∧
    initResultStore store2 pid auth tt nm fee2 tl2 lim2 t1 = store2 ∧
    (lookupRecord (initResultStore store2 pid auth tt nm fee2 tl2 lim2 t1) addr).map
      (·.total_deposited) = (lookupRecord store2 addr).map (·.total_deposited) := by
  simp only [initializeStep] at hinit
  split at hinit
  · cases hinit
  split at hinit
  · cases hinit
  simp only [Except.ok.injEq, Prod.mk.injEq] at hinit
  obtain ⟨hstore, haddr⟩ := hinit
  obtain ⟨r, hlook⟩ :
      ∃ r, lookupRecord store2 (derive_vault_address auth tt nm pid) = some r := by
    rw [← hstore]
    refine ⟨{ authority := auth
              token_type := tt
              fee_collector := auth
              fee_percentage := fee
              withdrawal_timelock := tl
              withdrawal_limit := lim
              total_deposited := 0
              name := nm
              creation_time := t0 }, ?_⟩
    simp [lookupRecord]
  have h2 : initializeStep store2 pid auth tt nm fee2 tl2 lim2 t1 =
      .error .AlreadyInitialized := by
    simp only [initializeStep, hlook]
  refine ⟨h2, ?_, ?_⟩
  · simp only [initResultStore, h2]
  · simp only [initResultStore, h2]

/-- Witness for C6: re-initializing the sample vault triple fails with
`AlreadyInitialized` and leaves the store (and `total_deposited`) unchanged. -/
theorem c6_witness :
    initializeStep [(sampleAddr, sampleInitRecord)] [0] [1] [2] "n" 100 86400 1000 99 =
      .error .AlreadyInitialized ∧
    initResultStore [(sampleAddr, sampleInitRecord)] [0] [1] [2] "n" 100 86400 1000 99 =
      [(sampleAddr, sampleInitRecord)] ∧
    (lookupRecord
        (initResultStore [(sampleAddr, sampleInitRecord)] [0] [1] [2] "n" 100 86400 1000 99)
        sampleAddr).map (·.total_deposited) =
      (lookupRecord [(sampleAddr, sampleInitRecord)] sampleAddr).map (·.total_deposited) :=
  c6_reinitialization_rejected [] [0] [1] [2] "n" 100 86400 1000 5
    [(sampleAddr, sampleInitRecord)] sampleAddr 100 86400 1000 99 (by decide)

/-- C7: an Initialize with `fee_percentage > 10_000` on a free address fails
with `InvalidFeeConfig` and mutates nothing, while any `fee_percentage ≤
10_000` satisfies the fee-range precondition and the Initialize succeeds. -/
theorem c7_fee_config_range (store : RecordStore) (pid auth tt : Pubkey) (nm : String)
    (feeBad feeGood : Nat) (tl : Int) (lim : Nat) (t0 : Int)
    (hfree : lookupRecord store (derive_vault_address auth tt nm pid) = none)
    (hbad : 10000 < feeBad) (hgood : feeGood ≤ 10000) :
    (initializeStep store pid auth tt nm feeBad tl lim t0 = .error .InvalidFeeConfig ∧
     initResultStore store pid auth tt nm feeBad tl lim t0 = store) ∧
    ∃ store2 addr, initializeStep store pid auth tt nm feeGood tl lim t0 =
      .ok (store2, addr) := by
  have h1 : initializeStep store pid auth tt nm feeBad tl lim t0 =
      .error .InvalidFeeConfig := by
    simp only [initializeStep, hfree]
    simp [hbad]
  refine ⟨⟨h1, by simp only [initResultStore, h1]⟩, ?_⟩
  refine ⟨(derive_vault_address auth tt nm pid,
    { authority := auth
      token_type := tt
      fee_collector := auth
      fee_percentage := feeGood
      withdrawal_timelock := tl
      withdrawal_limit := lim
      total_deposited := 0
      name := nm
      creation_time := t0 }) :: store,
    derive_vault_address auth tt nm pid, ?_⟩
  simp only [initializeStep, hfree]
  simp [Nat.not_lt.mpr hgood]

/-- Witness for C7: on an empty store, fee 20000 basis points is rejected with
`InvalidFeeConfig` and fee 100 basis points is accepted. -/
theorem c7_witness :
    (initializeStep [] [0] [1] [2] "n" 20000 86400 1000 5 = .error .InvalidFeeConfig ∧
     initResultStore [] [0] [1] [2] "n" 20000 86400 1000 5 = []) ∧
    ∃ store2 addr, initializeStep [] [0] [1] [2] "n" 100 86400 1000 5 =
      .ok (store2, addr) :=
  c7_fee_config_range [] [0] [1] [2] "n" 20000 100 86400 1000 5 (by decide) (by decide)
    (by decide)

/-- C8: `get_vault_info` is a pure read — on a client with a set vault address
it returns exactly the stored record when one exists, reports the missing
vault as an error (never a default or zero-valued record), and never mutates
any state: every successful result carries the unchanged client and a record
that is literally the one in the store. -/
theorem c8_get_vault_info_exact (c : TokenVaultClient) (sHit sMiss : AccountStore)
    (v : Pubkey) (vd : Vault) (c2 : TokenVaultClient) (vd2 : Vault)
    (hv : c.vault_address = some v)
    (hhit : lookupAccount sHit v = some vd)
    (hmiss : lookupAccount sMiss v = none)
    (hok : c.get_vault_info sHit = .ok (c2, vd2)) :
    c.get_vault_info sHit = .ok (c, vd) ∧
    c.get_vault_info sMiss = .error .vaultNotFound ∧
    c2 = c ∧ vd2 = vd ∧ lookupAccount sHit v = some vd2 := by
  have h1 : c.get_vault_info sHit = .ok (c, vd) := by
    simp only [TokenVaultClient.get_vault_info, hv, hhit]
  rw [h1] at hok
  simp only [Except.ok.injEq, Prod.mk.injEq] at hok
  obtain ⟨hc2, hvd2⟩ := hok
  refine ⟨h1, ?_, hc2.symm, hvd2.symm, ?_⟩
  · simp only [TokenVaultClient.get_vault_info, hv, hmiss]
  · rw [← hvd2]
    exact hhit

/-- Witness for C8: the sample client reads the stored sample vault exactly
and reports a missing vault on the empty store. -/
theorem c8_witness :
    sampleClient.get_vault_info [([5], sampleVault)] = .ok (sampleClient, sampleVault) ∧
    sampleClient.get_vault_info [] = .error .vaultNotFound ∧
    sampleClient = sampleClient ∧ sampleVault = sampleVault ∧
    lookupAccount [([5], sampleVault)] [5] = some sampleVault :=
  c8_get_vault_info_exact sampleClient [([5], sampleVault)] [] [5] sampleVault
    sampleClient sampleVault (by decide) (by decide) (by decide) (by decide)

/-- C9: on a client whose vault address was never set, `deposit`, `withdraw`
and `get_vault_info` each fail with the `Vault address not set` error before
building any request, while `initialize_vault` succeeds, returns the derived
vault address, and leaves the client unchanged (vault address still unset),
so a subsequent `deposit` on the returned client still fails. -/
theorem c9_vault_address_must_be_set (c : TokenVaultClient) (store : AccountStore)
    (dep w : Pubkey) (amt amt2 : Nat) (auth tm : Pubkey) (nm : String)
    (fee : Nat) (tl : Int) (lim : Nat)
    (hset : c.vault_address = none) :
    c.deposit store dep amt = .error .vaultAddressNotSet ∧
    c.withdraw store w amt2 = .error .vaultAddressNotSet ∧
    c.get_vault_info store = .error .vaultAddressNotSet ∧
    ∃ req, c.initialize_vault auth tm nm fee tl lim =
      .ok (c, req, derive_vault_address auth tm nm c.programId) := by
  refine ⟨?_, ?_, ?_, ?_⟩
  · simp only [TokenVaultClient.deposit, hset]
  · simp only [TokenVaultClient.withdraw, hset]
  · simp only [TokenVaultClient.get_vault_info, hset]
  · refine ⟨{ authority := auth
              vault := derive_vault_address auth tm nm c.programId
              vault_token_account :=
                init_vault_token_account (derive_vault_address auth tm nm c.programId)
                  c.programId
              token_mint := tm
              token_program := tokenProgramID
              system_program := systemProgramID
              rent := rentSysvarID
              name := nm
              fee_percentage := fee
              withdrawal_timelock := tl
              withdrawal_limit := lim }, rfl⟩

/-- Witness for C9: a freshly constructed client rejects deposit, withdraw and
info lookup, while initialize returns the derived address without setting the
stored vault address. -/
theorem c9_witness :
    sampleClientNoVault.deposit [] [7] 4 = .error .vaultAddressNotSet ∧
    sampleClientNoVault.withdraw [] [7] 4 = .error .vaultAddressNotSet ∧
    sampleClientNoVault.get_vault_info [] = .error .vaultAddressNotSet ∧
    ∃ req, sampleClientNoVault.initialize_vault [1] [2] "n" 100 86400 1000 =
      .ok (sampleClientNoVault, req,
        derive_vault_address [1] [2] "n" sampleClientNoVault.programId) :=
  c9_vault_address_must_be_set sampleClientNoVault [] [7] [7] 4 4 [1] [2] "n" 100 86400
    1000 (by decide)

/-- C10: the client-side `withdraw` builds and submits the same withdrawal
request whatever the vault's authority field is — in particular whether or not
the withdrawer equals the authority — and it succeeds locally for every
signing withdrawer: the authority is read but never compared, and no
Unauthorized error exists on the client path. -/
theorem c10_withdraw_ignores_authority (c : TokenVaultClient) (v : Pubkey) (vd : Vault)
    (a1 a2 : Pubkey) (s1 s2 : AccountStore) (w : Pubkey) (amt : Nat)
    (hv : c.vault_address = some v)
    (h1 : lookupAccount s1 v = some { vd with authority := a1 })
    (h2 : lookupAccount s2 v = some { vd with authority := a2 }) :
    c.withdraw s1 w amt = c.withdraw s2 w amt ∧
    ∃ req, c.withdraw s1 w amt = .ok (c, req) := by
  constructor
  · simp only [TokenVaultClient.withdraw, hv, h1, h2]
  · refine ⟨{ withdrawer := w
              vault := v
              vault_token_account := withdraw_vault_token_account v c.programId
              withdrawer_token_account := get_associated_token_address w vd.token_mint
              fee_collector_token_account :=
                get_associated_token_address vd.fee_collector vd.token_mint
              token_program := tokenProgramID
              amount := amt }, ?_⟩
    simp only [TokenVaultClient.withdraw, hv, h1]

/-- Witness for C10: two stores holding the sample vault under different
authorities produce identical withdrawal requests for a non-authority
withdrawer, and the request is built successfully. -/
theorem c10_witness :
    (sampleClient.withdraw [([5], { sampleVault with authority := [11] })] [7] 4 =
      sampleClient.withdraw [([5], { sampleVault with authority := [12] })] [7] 4) ∧
    ∃ req, sampleClient.withdraw [([5], { sampleVault with authority := [11] })] [7] 4 =
      .ok (sampleClient, req) :=
  c10_withdraw_ignores_authority sampleClient [5] sampleVault [11] [12]
    [([5], { sampleVault with authority := [11] })]
    [([5], { sampleVault with authority := [12] })] [7] 4
    (by decide) (by decide) (by decide)
